import Mathlib

/-!
# Verification of the `boost::sync::condition_variable` contract

The repository file
`src/external_libraries/boost_sync/include/boost/sync/condition_variables/condition_variable.hpp`
is the Doxygen reference header of the condition variable: it declares the
operations (`wait`, the predicate overloads, `timed_wait`, `wait_for`,
`wait_until`, `notify_one`, `notify_all`, the constructor) and documents their
behaviour, including explicit code-equivalence snippets for the predicate
loops and the return-value contracts of the timed waits.  The platform
implementation headers (`condition_variable_posix.hpp` /
`condition_variable_windows.hpp`) are not part of the sources, so the
behavioural contracts written in this header, complemented where necessary by
the specification, are what we embed here.

The development has four parts:
1. an interleaving model of the Wait Queue Core (atomic release+enqueue,
   notify operations) for the no-lost-wakeup guarantee;
2. the untimed predicate loop, translated from the documented equivalence
   `while (!pred()) wait(lock);`;
3. the timeout arithmetic: the bounded wait, its boolean/status result
   mapping, and the timed predicate loops with their event traces;
4. error paths: OS failure, predicate failure, and the lock postcondition,
   together with the fallible constructor.

In the sequential models, the caller-visible shared state has an abstract type
`σ`; the activity of the other threads while the waiter is blocked is a step
function `stepF : σ → σ` applied once per completed blocking call (no blocking
call, no state change — the waiter holds the guarding lock the whole time
otherwise).  Loops that may block indefinitely take a fuel bound; exhausting
it stands for "still blocked" and is reported as a `none` result.
-/

namespace BoostSync

/-! ## Part 1: Wait Queue Core (interleaving model)

Modelled from the spec: the wait-queue bookkeeping of the Wait Queue Core
(§4.1, §5) is implemented in the platform headers that are absent from the
sources; only its contract appears in `condition_variable.hpp` (lines 55-80:
`notify_one` wakes one blocked thread, `notify_all` wakes all, `wait`
"atomically unlocks the mutex and blocks on the object").  A state records
which threads are registered in the wait queue, which have been signalled but
not yet resumed, and who holds the guarding lock. -/

structure CVState where
  waiting : List Nat
  woken : List Nat
  lockHeldBy : Option Nat
deriving DecidableEq, Repr

/-- Modelled from the spec: `notify_one` "wakes up one thread blocked on the
object" (header line 58); a pure total function, so it never fails and never
blocks; with an empty wait queue it is a no-op. -/
def notify_one (s : CVState) : CVState :=
  match s.waiting with
  | [] => s
  | w :: rest => { s with waiting := rest, woken := w :: s.woken }

/-- Modelled from the spec: `notify_all` "wakes up all threads blocked on the
object" (header line 63); a pure total function, so it never fails and never
blocks; with an empty wait queue it is a no-op. -/
def notify_all (s : CVState) : CVState :=
  { s with waiting := [], woken := s.waiting ++ s.woken }

/-- Atomic operations of the interleaving model: a waiter's single
release+enqueue+block step, the two notify operations, a spurious wakeup, and
a woken thread resuming (reacquiring the lock). -/
inductive Op where
  | waitRegister (w : Nat)
  | notifyOne
  | notifyAll
  | spuriousWake (w : Nat)
  | resume (w : Nat)
deriving DecidableEq, Repr

/-- Modelled from the spec: one atomic step of the protocol.  `waitRegister w`
is the atomic unlock-and-block of `wait` (header line 68: "Atomically unlocks
the mutex and blocks on the object"): releasing the guarding lock and entering
the wait queue happen in one indivisible step, with no intermediate state. -/
def applyOp : Op → CVState → CVState
  | .waitRegister w, s => { s with waiting := s.waiting ++ [w], lockHeldBy := none }
  | .notifyOne, s => notify_one s
  | .notifyAll, s => notify_all s
  | .spuriousWake w, s =>
      if w ∈ s.waiting then
        { s with waiting := s.waiting.erase w, woken := w :: s.woken }
      else s
  | .resume w, s =>
      if w ∈ s.woken ∧ s.lockHeldBy = none then
        { s with woken := s.woken.erase w, lockHeldBy := some w }
      else s

/-- Run a sequence of interleaved operations. -/
def runOps (ops : List Op) (s : CVState) : CVState :=
  ops.foldl (fun t op => applyOp op t) s

/-- Whether an operation can affect waiter `w`'s registration: the notify
operations and `w`'s own wake/resume/register steps. -/
def touches (w : Nat) : Op → Bool
  | .waitRegister u => u == w
  | .notifyOne => true
  | .notifyAll => true
  | .spuriousWake u => u == w
  | .resume u => u == w

/-! ## Part 2: the untimed predicate loop -/

/-- Translated from `condition_variable.hpp` lines 82-102: the predicate
overload of `wait` "works equivalent to `while (!pred()) wait(lock);`".  Each
core `wait` releases the lock, blocks, and on wake reacquires it; the shared
state seen by the next predicate evaluation is `stepF s`.  Returns the state
in which the predicate was finally observed true, or `none` when the fuel
bound is reached with the waiter still blocked. -/
def wait_with_pred {σ : Type} (stepF : σ → σ) (pred : σ → Bool) :
    Nat → σ → Option σ
  | 0, s => if pred s then some s else none
  | fuel + 1, s =>
      if pred s then some s else wait_with_pred stepF pred fuel (stepF s)

/-- Follows the spec's words (§4.2): `wait_until_predicate(lock, predicate)`
"repeatedly calls Wait Queue Core's `wait(lock)` while `predicate()`
(evaluated under the lock) is false; returns once `predicate()` is true".
Stated separately from `wait_with_pred` so the two renderings can be
compared. -/
def spec_wait_until_predicate {σ : Type} (stepF : σ → σ) (pred : σ → Bool) :
    Nat → σ → Option σ
  | 0, s => if pred s then some s else none
  | fuel + 1, s =>
      if pred s then some s
      else spec_wait_until_predicate stepF pred fuel (stepF s)

/-! ## Part 3: timeout arithmetic and the timed predicate loops -/

/-- The two-valued status result of the timed waits (`condition_variable.hpp`
lines 176 and 223): `no_timeout` when the function returned before the
timeout expired, `timeout` otherwise. -/
inductive cv_status where
  | no_timeout
  | timeout
deriving DecidableEq, Repr

/-- Modelled from the spec: the per-iteration bounded wait of §4.3 ("computes
`remaining = deadline - now`; if `remaining <= 0`, short-circuits to timed
out without invoking Wait Queue Core; otherwise performs a bounded block for
at most `remaining` and reports whether it returned due to expiry or a wake
signal").  The implementation headers are not in the sources.  `wake` is the
outcome of the OS-level bounded block when it is invoked (`true` = returned
before expiry).  Result: (returned before expiry, core block was invoked). -/
def boundedWaitUntil (deadline now : Int) (wake : Bool) : Bool × Bool :=
  if deadline - now ≤ 0 then (false, false) else (wake, true)

/-- Translated from the return contract of the boolean-result bounded wait
(`condition_variable.hpp` line 118: "true if the function returned before
the timeout expired, otherwise false"). -/
def timed_wait_bool (deadline now : Int) (wake : Bool) : Bool :=
  (boundedWaitUntil deadline now wake).1

/-- Translated from the return contract of the status-result bounded wait
(`condition_variable.hpp` lines 176 and 223: "`cv_status::no_timeout` if the
function returned before the timeout expired, otherwise
`cv_status::timeout`"), derived from the same underlying measurement as
`timed_wait_bool`. -/
def wait_until_status (deadline now : Int) (wake : Bool) : cv_status :=
  if (boundedWaitUntil deadline now wake).1 then .no_timeout else .timeout

/-- Observable events of one timed predicate-wait call: a predicate
evaluation with its value, a bounded wait that short-circuited (deadline
already passed, core never invoked), a core block that woke before expiry,
and a core block that ran to expiry. -/
inductive Ev where
  | pcheck (b : Bool)
  | scTimeout
  | coreWoke
  | coreTimeout
deriving DecidableEq, Repr

/-- An event reporting that the bounded wait timed out. -/
def isTimeoutEv : Ev → Bool
  | .scTimeout => true
  | .coreTimeout => true
  | _ => false

/-- An event that is a predicate evaluation. -/
def isPcheck : Ev → Bool
  | .pcheck _ => true
  | _ => false

/-- Number of predicate evaluations recorded after the first timeout report
in a trace. -/
def evalsAfterTimeout : List Ev → Nat
  | [] => 0
  | e :: tr => if isTimeoutEv e then (tr.filter isPcheck).length
               else evalsAfterTimeout tr

/-- Translated from `condition_variable.hpp` lines 232-256: the predicate
overload of `wait_until` "works equivalent to
`while (!pred()) if (wait_until(lock, timeout) == cv_status::timeout) return pred();`",
instrumented with the event trace of the call.  `times k` is the clock sample
and `wake k` the OS block outcome of the k-th bounded wait.  When the bounded
wait woke before expiry the loop re-checks the predicate on the stepped state;
when it reports timeout the code returns one final predicate evaluation.  A
short-circuited bounded wait blocks nothing, so the state is unchanged there.
Result `none` means the fuel bound was reached with the waiter still
looping. -/
def wait_until_pred_tr {σ : Type} (stepF : σ → σ) (pred : σ → Bool)
    (times : Nat → Int) (wake : Nat → Bool) (deadline : Int) :
    Nat → Nat → σ → Option Bool × List Ev
  | 0, _, s =>
      if pred s then (some true, [.pcheck true]) else (none, [.pcheck false])
  | fuel + 1, k, s =>
      if pred s then (some true, [.pcheck true])
      else
        let bw := boundedWaitUntil deadline (times k) (wake k)
        if bw.2 then
          if bw.1 then
            let r := wait_until_pred_tr stepF pred times wake deadline fuel
              (k + 1) (stepF s)
            (r.1, .pcheck false :: .coreWoke :: r.2)
          else
            (some (pred (stepF s)),
              [.pcheck false, .coreTimeout, .pcheck (pred (stepF s))])
        else
          (some (pred s), [.pcheck false, .scTimeout, .pcheck (pred s)])

/-- The same documented loop as `wait_until_pred_tr`, instrumented instead
with the list of deadline arguments handed to the successive bounded
waits. -/
def wait_until_pred_dl {σ : Type} (stepF : σ → σ) (pred : σ → Bool)
    (times : Nat → Int) (wake : Nat → Bool) (deadline : Int) :
    Nat → Nat → σ → Option Bool × List Int
  | 0, _, s => (if pred s then some true else none, [])
  | fuel + 1, k, s =>
      if pred s then (some true, [])
      else
        let bw := boundedWaitUntil deadline (times k) (wake k)
        if bw.1 then
          let r := wait_until_pred_dl stepF pred times wake deadline fuel
            (k + 1) (stepF s)
          (r.1, deadline :: r.2)
        else
          (some (pred (if bw.2 then stepF s else s)), [deadline])

/-- Translated from `condition_variable.hpp` lines 138-145: the
relative-duration predicate `timed_wait` "works as if equivalent to
`auto abs_timeout = chrono::system_clock::now() + timeout;` followed by the
absolute-deadline loop" — the absolute deadline is computed exactly once, at
entry, as `now0 + dur`, and the loop is run against that fixed value (the
same shape as `wait_for` with a predicate, lines 185-207). -/
def timed_wait_rel_pred {σ : Type} (stepF : σ → σ) (pred : σ → Bool)
    (times : Nat → Int) (wake : Nat → Bool) (now0 dur : Int)
    (fuel : Nat) (s : σ) : Option Bool × List Int :=
  wait_until_pred_dl stepF pred times wake (now0 + dur) fuel 0 s

/-! ## Part 4: failure paths, the lock postcondition and the constructor -/

/-- The failure modes a (timed) wait call can raise: an OS-level failure of
the underlying blocking primitive (header lines 77, 120, 155, 178: "an
exception in case if the operating system is unable to fulfill the request"),
or a failure thrown by the caller-supplied predicate. -/
inductive WaitFail (ε : Type) where
  | os
  | pred (e : ε)
deriving DecidableEq

/-- Translated from the doc contract of `wait` (`condition_variable.hpp`
lines 65-80): atomically unlocks and blocks; when unblocked, locks the mutex
and returns; on OS failure "the mutex is left in the locked state in case of
exception" (line 77).  The second component is whether the caller owns the
guarding lock when the call returns or raises. -/
def wait_core_lock {σ : Type} (osFail : Bool) (stepF : σ → σ) (s : σ) :
    Except Unit σ × Bool :=
  if osFail then (.error (), true) else (.ok (stepF s), true)

/-- The untimed predicate loop with a fallible predicate and a fallible OS
blocking step, tracking lock ownership at exit.  The loop shape is the
documented `while (!pred()) wait(lock);`; the failure policy is modelled from
the spec (§4.2 edge case policy and §7: a predicate failure terminates the
loop immediately and propagates, with the lock left locked, exactly like the
OS-failure path; the platform implementation is not in the sources).
`osFail k` says whether the k-th core `wait` raises.  Result `.ok none`
means the fuel bound was reached while still looping (the lock is held
there too: the waiter had just re-evaluated the predicate under the lock). -/
def wait_pred_full {σ ε : Type} (osFail : Nat → Bool) (stepF : σ → σ)
    (pred : σ → Except ε Bool) :
    Nat → Nat → σ → Except (WaitFail ε) (Option σ) × Bool
  | 0, _, s =>
      match pred s with
      | .error e => (.error (.pred e), true)
      | .ok true => (.ok (some s), true)
      | .ok false => (.ok none, true)
  | fuel + 1, k, s =>
      match pred s with
      | .error e => (.error (.pred e), true)
      | .ok true => (.ok (some s), true)
      | .ok false =>
          if osFail k then (.error .os, true)
          else wait_pred_full osFail stepF pred fuel (k + 1) (stepF s)

/-- The timed predicate loop (documented equivalence of lines 232-256, as in
`wait_until_pred_tr`) with a fallible predicate and fallible OS blocking
step, tracking lock ownership at exit; failure policy modelled from the spec
(§4.2, §7) as in `wait_pred_full`. -/
def timed_wait_full {σ ε : Type} (osFail : Nat → Bool) (stepF : σ → σ)
    (pred : σ → Except ε Bool) (times : Nat → Int) (wake : Nat → Bool)
    (deadline : Int) :
    Nat → Nat → σ → Except (WaitFail ε) (Option Bool) × Bool
  | 0, _, s =>
      match pred s with
      | .error e => (.error (.pred e), true)
      | .ok true => (.ok (some true), true)
      | .ok false => (.ok none, true)
  | fuel + 1, k, s =>
      match pred s with
      | .error e => (.error (.pred e), true)
      | .ok true => (.ok (some true), true)
      | .ok false =>
          if osFail k then (.error .os, true)
          else
            let bw := boundedWaitUntil deadline (times k) (wake k)
            if bw.1 then
              timed_wait_full osFail stepF pred times wake deadline fuel
                (k + 1) (stepF s)
            else
              let s2 := if bw.2 then stepF s else s
              match pred s2 with
              | .error e => (.error (.pred e), true)
              | .ok b => (.ok (some b), true)

/-- Failure raised by the default constructor. -/
inductive CtorError where
  | insufficientResources
deriving DecidableEq

/-- A successfully created condition variable, wrapping the OS primitive it
owns. -/
structure ConditionVariable where
  handle : Nat
deriving DecidableEq

/-- Translated from `condition_variable.hpp` lines 36-41: the default
constructor "throws an exception in case if the operating system is unable
to create the primitive (e.g. due to insufficient resources)".  `osHandle`
is the outcome of the OS creation call: `some h` when the OS hands back a
primitive, `none` when it cannot. -/
def condition_variable_ctor (osHandle : Option Nat) :
    Except CtorError ConditionVariable :=
  match osHandle with
  | some h => .ok ⟨h⟩
  | none => .error .insufficientResources

/-! ## Theorems -/

theorem mem_waiting_applyOp {w : Nat} {s : CVState} {op : Op}
    (hw : w ∈ s.waiting) (hop : touches w op = false) :
    w ∈ (applyOp op s).waiting := by
  cases op with
  | waitRegister u =>
      simp only [applyOp]
      exact List.mem_append_left _ hw
  | notifyOne => simp [touches] at hop
  | notifyAll => simp [touches] at hop
  | spuriousWake u =>
      simp only [touches, beq_eq_false_iff_ne, ne_eq] at hop
      simp only [applyOp]
      by_cases hm : u ∈ s.waiting
      · simp only [hm, if_pos]
        exact List.mem_erase_of_ne (fun h => hop h.symm) |>.mpr hw
      · simp only [hm, if_neg, not_false_iff]
        exact hw
  | resume u =>
      simp only [applyOp]
      by_cases hc : u ∈ s.woken ∧ s.lockHeldBy = none
      · simp only [hc, if_pos]
        exact hw
      · simp only [hc, if_neg, not_false_iff]
        exact hw

theorem mem_waiting_runOps {w : Nat} {ops : List Op} {s : CVState}
    (hw : w ∈ s.waiting) (hops : ∀ op ∈ ops, touches w op = false) :
    w ∈ (runOps ops s).waiting := by
  induction ops generalizing s with
  | nil => exact hw
  | cons op rest ih =>
      simp only [runOps, List.foldl_cons]
      exact ih (mem_waiting_applyOp hw (hops op (List.mem_cons_self op rest)))
        (fun o ho => hops o (List.mem_cons_of_mem op ho))

/-- C1: for every call to `wait(lock)`, the release of the lock and the
suspension of the calling thread happen atomically with respect to notify
operations: the `waitRegister` step releases the lock and registers the
waiter in one indivisible transition (first conjunct), so after any
interleaving of steps by other threads, a `notify_all` issued after the
release step wakes this waiter, and a `notify_one` either wakes it or leaves
it registered for a later notify — the notification is never lost. -/
theorem C1_atomic_release_no_lost_wakeup (s : CVState) (w : Nat) (ops : List Op)
    (hops : ∀ op ∈ ops, touches w op = false) :
    ((applyOp (.waitRegister w) s).lockHeldBy = none ∧
      w ∈ (applyOp (.waitRegister w) s).waiting) ∧
    w ∈ (notify_all (runOps ops (applyOp (.waitRegister w) s))).woken ∧
    (w ∈ (notify_one (runOps ops (applyOp (.waitRegister w) s))).waiting ∨
      w ∈ (notify_one (runOps ops (applyOp (.waitRegister w) s))).woken) := by
  have h1 : w ∈ (applyOp (.waitRegister w) s).waiting := by
    simp [applyOp]
  have hmem := mem_waiting_runOps h1 hops
  refine ⟨⟨rfl, h1⟩, ?_, ?_⟩
  · simp only [notify_all]
    exact List.mem_append_left _ hmem
  · rcases htt : runOps ops (applyOp (.waitRegister w) s) with ⟨tw, tk, tl⟩
    rw [htt] at hmem
    change w ∈ tw at hmem
    cases tw with
    | nil => exact absurd hmem (List.not_mem_nil w)
    | cons u rest =>
        rcases List.mem_cons.mp hmem with h | h
        · right
          show w ∈ u :: tk
          exact h ▸ List.mem_cons_self _ _
        · left
          exact h

/-- Witness for C1 at concrete inputs: waiter 7 registers, another thread
registers afterwards, then a `notify_all` wakes waiter 7. -/
theorem C1_atomic_release_no_lost_wakeup_witness :
    (7 : Nat) ∈ (notify_all (runOps [Op.waitRegister 5]
      (applyOp (.waitRegister 7) ⟨[], [], some 7⟩))).woken :=
  (C1_atomic_release_no_lost_wakeup ⟨[], [], some 7⟩ 7 [Op.waitRegister 5]
    (by decide)).2.1

/-- C8: `notify_one` and `notify_all` are total functions of the model state
(they never fail and never block), and with zero blocked waiters each is a
no-op: it returns with no observable effect. -/
theorem C8_notify_noop (s : CVState) (h : s.waiting = []) :
    notify_one s = s ∧ notify_all s = s := by
  rcases s with ⟨tw, tk, tl⟩
  change tw = [] at h
  subst h
  exact ⟨rfl, rfl⟩

/-- Witness for C8 at a concrete state with no blocked waiters. -/
theorem C8_notify_noop_witness :
    notify_one ⟨[], [3], some 1⟩ = ⟨[], [3], some 1⟩ ∧
    notify_all ⟨[], [3], some 1⟩ = ⟨[], [3], some 1⟩ :=
  C8_notify_noop ⟨[], [3], some 1⟩ rfl

/-- C2: the predicate overload of `wait` behaves exactly as the loop
`while (!pred()) wait(lock);` — the translation of the header's equivalence
snippet coincides with the loop written from the spec's words on every input,
and when it returns, the predicate holds in the returned state. -/
theorem C2_wait_pred_equiv_loop {σ : Type} (stepF : σ → σ) (pred : σ → Bool)
    (fuel : Nat) (s : σ) :
    wait_with_pred stepF pred fuel s = spec_wait_until_predicate stepF pred fuel s ∧
    ∀ s2, wait_with_pred stepF pred fuel s = some s2 → pred s2 = true := by
  induction fuel generalizing s with
  | zero =>
      refine ⟨rfl, fun s2 h => ?_⟩
      by_cases hp : pred s
      · simp only [wait_with_pred, hp, if_pos, Option.some.injEq] at h
        exact h ▸ hp
      · simp [wait_with_pred, hp] at h
  | succ n ih =>
      constructor
      · by_cases hp : pred s
        · simp [wait_with_pred, spec_wait_until_predicate, hp]
        · simp only [wait_with_pred, spec_wait_until_predicate, hp,
            Bool.false_eq_true, if_neg]
          exact (ih (stepF s)).1
      · intro s2 h
        by_cases hp : pred s
        · simp only [wait_with_pred, hp, if_pos, Option.some.injEq] at h
          exact h ▸ hp
        · simp only [wait_with_pred, hp, Bool.false_eq_true, if_neg] at h
          exact (ih (stepF s)).2 s2 h

/-- Witness for C2 at concrete inputs: counting up from 0 until the
predicate `3 ≤ n` holds. -/
theorem C2_wait_pred_equiv_loop_witness :
    wait_with_pred Nat.succ (fun n => decide (3 ≤ n)) 5 0 =
      spec_wait_until_predicate Nat.succ (fun n => decide (3 ≤ n)) 5 0 ∧
    decide (3 ≤ 3) = true :=
  ⟨(C2_wait_pred_equiv_loop Nat.succ (fun n => decide (3 ≤ n)) 5 0).1,
   (C2_wait_pred_equiv_loop Nat.succ (fun n => decide (3 ≤ n)) 5 0).2 3 (by decide)⟩

/-- C7: the boolean-result and status-result forms of the bounded wait agree:
the boolean form returns `true` exactly when the status form returns
`no_timeout` and `false` exactly when it returns `timeout`, both derived from
the same underlying measurement `boundedWaitUntil`. -/
theorem C7_bool_status_agree (deadline now : Int) (wake : Bool) :
    (timed_wait_bool deadline now wake = true ↔
      wait_until_status deadline now wake = .no_timeout) ∧
    (timed_wait_bool deadline now wake = false ↔
      wait_until_status deadline now wake = .timeout) := by
  unfold timed_wait_bool wait_until_status
  cases hb : (boundedWaitUntil deadline now wake).1 <;> simp [hb]

/-- Witness for C7 at concrete measurements: a wake before a live deadline
maps to `no_timeout`, an expiry to `timeout`. -/
theorem C7_bool_status_agree_witness :
    wait_until_status 1 0 true = .no_timeout ∧
    wait_until_status 1 0 false = .timeout :=
  ⟨(C7_bool_status_agree 1 0 true).1.mp (by decide),
   (C7_bool_status_agree 1 0 false).2.mp (by decide)⟩

/-- C10: construction of the condition variable can fail — the constructor
reports `insufficientResources` exactly when the OS cannot create the
primitive, and every successfully constructed object wraps a primitive the
OS actually handed back, so successful construction is the only way to
obtain a usable condition variable. -/
theorem C10_ctor_fallible (osHandle : Option Nat) :
    (condition_variable_ctor osHandle = .error .insufficientResources ↔
      osHandle = none) ∧
    ∀ cv, condition_variable_ctor osHandle = .ok cv →
      osHandle = some cv.handle := by
  cases osHandle with
  | none =>
      exact ⟨⟨fun _ => rfl, fun _ => rfl⟩, fun cv h => by
        simp [condition_variable_ctor] at h⟩
  | some h =>
      refine ⟨⟨fun hc => ?_, fun hc => ?_⟩, fun cv hc => ?_⟩
      · simp [condition_variable_ctor] at hc
      · exact absurd hc (Option.some_ne_none h)
      · simp only [condition_variable_ctor, Except.ok.injEq] at hc
        rw [← hc]

/-- Witness for C10: the OS failing to create the primitive makes the
constructor fail, and a successful construction records the OS handle. -/
theorem C10_ctor_fallible_witness :
    condition_variable_ctor none = .error .insufficientResources ∧
    (some 7 : Option Nat) = some (ConditionVariable.mk 7).handle :=
  ⟨(C10_ctor_fallible none).1.mpr rfl,
   (C10_ctor_fallible (some 7)).2 ⟨7⟩ rfl⟩

/-- Counterexample for C3 as stated.  Concrete run: state counts up from 0,
the predicate is `n == 1`, the deadline is live but the OS block expires
(`wake` always false).  The first predicate check sees `false`, the bounded
wait reports timeout (`coreTimeout`), and then — before returning — the
driver evaluates the predicate once more (`evalsAfterTimeout = 1`, the final
`pcheck true` of the trace) and returns that value, `some true`.  The claim
says the driver does not re-evaluate the predicate after the bounded wait
reports timeout, i.e. that `evalsAfterTimeout` would be `0`; the documented
code `if (wait_until(lock, timeout) == cv_status::timeout) return pred();`
performs exactly one such re-evaluation. -/
theorem C3_counterexample :
    (wait_until_pred_tr Nat.succ (fun n => n == 1) (fun _ => 0) (fun _ => false)
      10 3 0 0).1 = some true ∧
    evalsAfterTimeout ((wait_until_pred_tr Nat.succ (fun n => n == 1)
      (fun _ => 0) (fun _ => false) 10 3 0 0).2) = 1 := by decide

/-- C3 as amended: the timed predicate wait returns `true` if the predicate
became true (its trace ends with a true predicate evaluation) and `false`
only if the deadline was reached with the predicate still false; on the
timed-out path the driver evaluates the predicate exactly once more after
the bounded wait reports timeout — the trace ends with that single
re-evaluation, whose value is returned — and no earlier timeout report
exists. -/
theorem C3_amended_timeout_final_recheck {σ : Type} (stepF : σ → σ)
    (pred : σ → Bool) (times : Nat → Int) (wake : Nat → Bool) (deadline : Int)
    (fuel k : Nat) (s : σ) :
    ((wait_until_pred_tr stepF pred times wake deadline fuel k s).2.any
        isTimeoutEv = true →
      ∃ tr1 e b,
        (wait_until_pred_tr stepF pred times wake deadline fuel k s).2 =
          tr1 ++ [e, .pcheck b] ∧
        isTimeoutEv e = true ∧
        (wait_until_pred_tr stepF pred times wake deadline fuel k s).1 = some b ∧
        tr1.any isTimeoutEv = false) ∧
    ((wait_until_pred_tr stepF pred times wake deadline fuel k s).1 = some false →
      (wait_until_pred_tr stepF pred times wake deadline fuel k s).2.any
        isTimeoutEv = true) ∧
    ((wait_until_pred_tr stepF pred times wake deadline fuel k s).1 = some true →
      ∃ tr1, (wait_until_pred_tr stepF pred times wake deadline fuel k s).2 =
        tr1 ++ [Ev.pcheck true]) := by
  induction fuel generalizing k s with
  | zero =>
      by_cases hp : pred s = true
      · have heq : wait_until_pred_tr stepF pred times wake deadline 0 k s =
            (some true, [.pcheck true]) := by
          simp [wait_until_pred_tr, hp]
        rw [heq]
        exact ⟨fun h => absurd h (by decide), fun h => absurd h (by decide),
          fun _ => ⟨[], rfl⟩⟩
      · have hp' : pred s = false := by revert hp; cases pred s <;> simp
        have heq : wait_until_pred_tr stepF pred times wake deadline 0 k s =
            (none, [.pcheck false]) := by
          simp [wait_until_pred_tr, hp']
        rw [heq]
        exact ⟨fun h => absurd h (by decide), fun h => absurd h (by decide),
          fun h => absurd h (by decide)⟩
  | succ fuel ih =>
      by_cases hp : pred s = true
      · have heq : wait_until_pred_tr stepF pred times wake deadline (fuel + 1) k s =
            (some true, [.pcheck true]) := by
          simp [wait_until_pred_tr, hp]
        rw [heq]
        exact ⟨fun h => absurd h (by decide), fun h => absurd h (by decide),
          fun _ => ⟨[], rfl⟩⟩
      · have hp' : pred s = false := by revert hp; cases pred s <;> simp
        rcases hbw : boundedWaitUntil deadline (times k) (wake k) with ⟨w1, w2⟩
        cases w2 with
        | false =>
            have heq : wait_until_pred_tr stepF pred times wake deadline
                (fuel + 1) k s =
                (some false, [.pcheck false, .scTimeout, .pcheck false]) := by
              simp [wait_until_pred_tr, hp', hbw]
            rw [heq]
            refine ⟨fun _ => ?_, fun _ => by decide, fun h => absurd h (by decide)⟩
            exact ⟨[.pcheck false], .scTimeout, false, rfl, rfl, rfl, by decide⟩
        | true =>
            cases w1 with
            | false =>
                have heq : wait_until_pred_tr stepF pred times wake deadline
                    (fuel + 1) k s =
                    (some (pred (stepF s)),
                      [.pcheck false, .coreTimeout, .pcheck (pred (stepF s))]) := by
                  simp [wait_until_pred_tr, hp', hbw]
                rw [heq]
                refine ⟨fun _ => ?_, fun _ => ?_, fun h => ?_⟩
                · exact ⟨[.pcheck false], .coreTimeout, pred (stepF s),
                    rfl, rfl, rfl, by decide⟩
                · simp [List.any_eq_true]
                  exact Or.inr (Or.inl rfl)
                · have hps : pred (stepF s) = true := by
                    simpa using h
                  rw [hps]
                  exact ⟨[.pcheck false, .coreTimeout], rfl⟩
            | true =>
                have heq : wait_until_pred_tr stepF pred times wake deadline
                    (fuel + 1) k s =
                    ((wait_until_pred_tr stepF pred times wake deadline fuel
                        (k + 1) (stepF s)).1,
                      .pcheck false :: .coreWoke ::
                        (wait_until_pred_tr stepF pred times wake deadline fuel
                          (k + 1) (stepF s)).2) := by
                  simp [wait_until_pred_tr, hp', hbw]
                rw [heq]
                obtain ⟨ih1, ih2, ih3⟩ := ih (k + 1) (stepF s)
                refine ⟨fun h => ?_, fun h => ?_, fun h => ?_⟩
                · have h' : (wait_until_pred_tr stepF pred times wake deadline
                      fuel (k + 1) (stepF s)).2.any isTimeoutEv = true := by
                    simpa [isTimeoutEv] using h
                  obtain ⟨tr1, e, b, htr, hte, hr, hany⟩ := ih1 h'
                  refine ⟨.pcheck false :: .coreWoke :: tr1, e, b, ?_, hte, hr, ?_⟩
                  · rw [htr]; rfl
                  · simp [isTimeoutEv, hany]
                · have h' := ih2 h
                  simp [isTimeoutEv, h']
                · obtain ⟨tr1, htr⟩ := ih3 h
                  exact ⟨.pcheck false :: .coreWoke :: tr1, by rw [htr]; rfl⟩

/-- Witness for the amended C3: a run whose deadline is already expired and
whose predicate stays false returns `some false`, and its trace indeed
carries a timeout report. -/
theorem C3_amended_timeout_final_recheck_witness :
    ((wait_until_pred_tr (fun n => n) (fun _ => false) (fun _ => 0)
      (fun _ => false) 0 2 0 (0 : Nat)).2.any isTimeoutEv) = true :=
  (C3_amended_timeout_final_recheck (fun n => n) (fun _ => false) (fun _ => 0)
    (fun _ => false) 0 2 0 0).2.1 (by decide)

theorem wait_until_pred_dl_mem {σ : Type} (stepF : σ → σ) (pred : σ → Bool)
    (times : Nat → Int) (wake : Nat → Bool) (deadline : Int) :
    ∀ (fuel k : Nat) (s : σ),
      ∀ d ∈ (wait_until_pred_dl stepF pred times wake deadline fuel k s).2,
        d = deadline := by
  intro fuel
  induction fuel with
  | zero =>
      intro k s d hd
      simp [wait_until_pred_dl] at hd
  | succ fuel ih =>
      intro k s d hd
      by_cases hp : pred s = true
      · simp [wait_until_pred_dl, hp] at hd
      · have hp' : pred s = false := by revert hp; cases pred s <;> simp
        rcases hbw : boundedWaitUntil deadline (times k) (wake k) with ⟨w1, w2⟩
        cases w1 with
        | false =>
            simp only [wait_until_pred_dl, hp', Bool.false_eq_true, if_false,
              hbw, List.mem_singleton] at hd
            exact hd
        | true =>
            simp only [wait_until_pred_dl, hp', Bool.false_eq_true, if_false,
              hbw, if_true, List.mem_cons] at hd
            rcases hd with hd | hd
            · exact hd
            · exact ih (k + 1) (stepF s) d hd

/-- C5: the relative-duration timed predicate wait computes its absolute
deadline exactly once at entry, as `now0 + dur`, and every bounded wait of
every subsequent loop iteration (spurious wakeups included) is issued with
that same fixed deadline — the original duration is never re-added. -/
theorem C5_deadline_fixed {σ : Type} (stepF : σ → σ) (pred : σ → Bool)
    (times : Nat → Int) (wake : Nat → Bool) (now0 dur : Int) (fuel : Nat)
    (s : σ) :
    ∀ d ∈ (timed_wait_rel_pred stepF pred times wake now0 dur fuel s).2,
      d = now0 + dur := by
  intro d hd
  exact wait_until_pred_dl_mem stepF pred times wake (now0 + dur) fuel 0 s d hd

/-- Witness for C5: a run with a spurious wakeup (`wake 0 = true`) performs
two bounded waits, both against the same deadline `2 + 3`. -/
theorem C5_deadline_fixed_witness :
    (timed_wait_rel_pred (fun n => n) (fun _ => false) (fun _ => 0)
      (fun k => k == 0) 2 3 3 (0 : Nat)).2 = [5, 5] ∧ (5 : Int) = 2 + 3 :=
  ⟨by decide,
   C5_deadline_fixed (fun n => n) (fun _ => false) (fun _ => 0)
     (fun k => k == 0) 2 3 3 0 5 (by decide)⟩

/-- C6: a timed predicate wait whose deadline has already passed at the
first clock sample (`deadline - now ≤ 0`) and whose predicate is false
returns `some false` (timed out) in a single iteration; the trace shows the
bounded wait short-circuited (`scTimeout`) — the blocking core wait was
never invoked (no `coreWoke`/`coreTimeout` event). -/
theorem C6_past_deadline_no_block {σ : Type} (stepF : σ → σ) (pred : σ → Bool)
    (times : Nat → Int) (wake : Nat → Bool) (deadline : Int) (fuel : Nat)
    (s : σ) (hpast : deadline - times 0 ≤ 0) (hpred : pred s = false) :
    wait_until_pred_tr stepF pred times wake deadline (fuel + 1) 0 s =
      (some false, [.pcheck false, .scTimeout, .pcheck false]) := by
  have hbw : boundedWaitUntil deadline (times 0) (wake 0) = (false, false) := by
    simp [boundedWaitUntil, hpast]
  simp [wait_until_pred_tr, hpred, hbw]

/-- Witness for C6 at concrete inputs: deadline 5 with the clock already at
5 and a false predicate times out at once without any core block. -/
theorem C6_past_deadline_no_block_witness :
    wait_until_pred_tr Nat.succ (fun _ => false) (fun _ => 5) (fun _ => true)
      5 4 0 0 =
      (some false, [Ev.pcheck false, Ev.scTimeout, Ev.pcheck false]) :=
  C6_past_deadline_no_block Nat.succ (fun _ => false) (fun _ => 5)
    (fun _ => true) 5 3 0 (by decide) (by decide)

theorem wait_pred_full_lock {σ ε : Type} (osFail : Nat → Bool) (stepF : σ → σ)
    (pred : σ → Except ε Bool) :
    ∀ (fuel k : Nat) (s : σ),
      (wait_pred_full osFail stepF pred fuel k s).2 = true := by
  intro fuel
  induction fuel with
  | zero =>
      intro k s
      rcases hp : pred s with e | b
      · simp [wait_pred_full, hp]
      · cases b <;> simp [wait_pred_full, hp]
  | succ fuel ih =>
      intro k s
      rcases hp : pred s with e | b
      · simp [wait_pred_full, hp]
      · cases b with
        | true => simp [wait_pred_full, hp]
        | false =>
            by_cases hos : osFail k = true
            · simp [wait_pred_full, hp, hos]
            · have hos' : osFail k = false := by revert hos; cases osFail k <;> simp
              simp only [wait_pred_full, hp, hos', Bool.false_eq_true, if_false]
              exact ih (k + 1) (stepF s)

theorem timed_wait_full_lock {σ ε : Type} (osFail : Nat → Bool) (stepF : σ → σ)
    (pred : σ → Except ε Bool) (times : Nat → Int) (wake : Nat → Bool)
    (deadline : Int) :
    ∀ (fuel k : Nat) (s : σ),
      (timed_wait_full osFail stepF pred times wake deadline fuel k s).2 = true := by
  intro fuel
  induction fuel with
  | zero =>
      intro k s
      rcases hp : pred s with e | b
      · simp [timed_wait_full, hp]
      · cases b <;> simp [timed_wait_full, hp]
  | succ fuel ih =>
      intro k s
      rcases hp : pred s with e | b
      · simp [timed_wait_full, hp]
      · cases b with
        | true => simp [timed_wait_full, hp]
        | false =>
            by_cases hos : osFail k = true
            · simp [timed_wait_full, hp, hos]
            · have hos' : osFail k = false := by revert hos; cases osFail k <;> simp
              rcases hbw : boundedWaitUntil deadline (times k) (wake k) with ⟨w1, w2⟩
              cases w1 with
              | true =>
                  simp only [timed_wait_full, hp, hos', Bool.false_eq_true,
                    if_false, hbw, if_true]
                  exact ih (k + 1) (stepF s)
              | false =>
                  rcases hp2 : pred (if w2 then stepF s else s) with e2 | b2 <;>
                    simp [timed_wait_full, hp, hos', hbw, hp2]

/-- C4: on every outcome path of every modelled wait call — the core `wait`
(normal wake or OS failure), the untimed predicate loop and the timed
predicate loop (normal return, timeout, OS failure, predicate failure, or
fuel exhaustion while still looping) — the guarding lock is owned by the
calling thread when the call returns or raises. -/
theorem C4_lock_postcondition {σ ε : Type} (osf : Bool) (osFail : Nat → Bool)
    (stepF : σ → σ) (pred : σ → Except ε Bool)
    (times : Nat → Int) (wake : Nat → Bool) (deadline : Int) (fuel k : Nat)
    (s : σ) :
    (wait_core_lock osf stepF s).2 = true ∧
    (wait_pred_full osFail stepF pred fuel k s).2 = true ∧
    (timed_wait_full osFail stepF pred times wake deadline fuel k s).2 = true :=
  ⟨by cases osf <;> simp [wait_core_lock],
   wait_pred_full_lock osFail stepF pred fuel k s,
   timed_wait_full_lock osFail stepF pred times wake deadline fuel k s⟩

/-- C9: if the caller-supplied predicate fails at an evaluation, both the
untimed and the timed predicate loops terminate at once — the result is
fixed by that failing evaluation alone, independently of the fuel, of the OS
schedule and of the clock, so no further core wait is performed — the
failure propagates to the caller (`.pred e`), and the guarding lock is left
in the locked state, exactly as on the successful and timed-out paths. -/
theorem C9_pred_failure_propagates {σ ε : Type} (osFail : Nat → Bool)
    (stepF : σ → σ) (pred : σ → Except ε Bool) (times : Nat → Int)
    (wake : Nat → Bool) (deadline : Int) (fuel k : Nat) (s : σ) (e : ε)
    (hp : pred s = .error e) :
    wait_pred_full osFail stepF pred fuel k s = (.error (.pred e), true) ∧
    timed_wait_full osFail stepF pred times wake deadline fuel k s =
      (.error (.pred e), true) := by
  cases fuel <;> constructor <;> simp [wait_pred_full, timed_wait_full, hp]

/-- Witness for C9 at concrete inputs: a predicate failing with error 42 on
its first evaluation aborts the loop with that error and the lock held. -/
theorem C9_pred_failure_propagates_witness :
    wait_pred_full (fun _ => false) Nat.succ
      (fun _ => (Except.error 42 : Except Nat Bool)) 5 0 0 =
      (.error (.pred 42), true) :=
  (C9_pred_failure_propagates (fun _ => false) Nat.succ
    (fun _ => (Except.error 42 : Except Nat Bool)) (fun _ => 0) (fun _ => false)
    0 5 0 0 42 rfl).1

end BoostSync
